import Mathlib

/-!
Verification of the fault-injection middleware in `src/injector.go` (package
`fault`).  HTTP handlers are shallowly embedded as trace-producing functions:
an invocation of a handler on a request yields the ordered list of observable
events it performs (observer reports, response writes, sleeps) together with
an optional Go panic value.  Wrapping (`Handler(next)`) is function
composition on these trace functions, exactly mirroring the Go code.
-/

/-- Lifecycle states reported to the observer (`InjectorState` in the source:
`StateStarted`, `StateFinished`, `StateSkipped`). -/
inductive InjectorState
  | started
  | finished
  | skipped
  deriving DecidableEq, Repr

/-- Modelled from the spec: the observer (`Reporter`) type is declared outside
`src/`; the spec treats it as an opaque external sink, so it is modelled as an
identifier. -/
structure Reporter where
  id : Nat
  deriving DecidableEq, Repr

/-- Modelled from the spec: the request-context tags (`ContextValueChainInjector`,
`ContextValueRandomInjector`, `ContextValueSlowInjector`, `ContextValueSkipped`)
are declared outside `src/`; spec section 6 lists one tag per injector path taken. -/
inductive ContextValue
  | chainInjector
  | randomInjector
  | slowInjector
  | skipped
  deriving DecidableEq, Repr

/-- An HTTP request, abstracted to the part the injectors touch: the ordered
list of context tags attached so far. -/
structure Request where
  tags : List ContextValue
  deriving DecidableEq, Repr

/-- Go panic values thrown by this package: only `http.ErrAbortHandler`. -/
inductive GoPanic
  | errAbortHandler
  deriving DecidableEq, Repr

/-- Observable events of one handler invocation, in order of occurrence:
a call reaching an attached observer, a `http.Error` response write
(status text body plus status code), or a `time.Sleep`. -/
inductive Event
  | report (rep : Reporter) (name : String) (state : InjectorState)
  | httpError (body : String) (code : Int)
  | sleep (d : Int)
  deriving DecidableEq, Repr

/-- Result of invoking a handler on one request: the event trace, and the
panic value if the invocation panicked (a panic aborts the rest of the
invocation and propagates to the server). -/
structure HandlerResult where
  events : List Event
  panicked : Option GoPanic
  deriving DecidableEq, Repr

/-- `http.Handler`: one invocation maps a request to its observable result. -/
def Handler : Type := Request → HandlerResult

/-- `func(next http.Handler) http.Handler`, the shape stored in the
combinators' `middlewares` slices. -/
def Middleware : Type := Handler → Handler

/-- Modelled from the spec: `updateRequestContextValue` (declared outside
`src/`) annotates the request context with the tag for the injector path
taken (spec section 6). -/
def updateRequestContextValue (r : Request) (v : ContextValue) : Request :=
  { tags := r.tags ++ [v] }

/-- Modelled from the spec: `reportWithMessage` (declared outside `src/`)
forwards a state transition to the attached observer; absence of an observer
is a valid silent no-op (spec section 6).  Returns the emitted events. -/
def reportWithMessage (rep : Option Reporter) (name : String) (s : InjectorState) :
    List Event :=
  match rep with
  | some rp => [Event.report rp name s]
  | none => []

/-- Go `error` values produced by this package. -/
inductive GoError
  | invalidHTTPCode
  deriving DecidableEq, Repr

/-- `ErrInvalidHTTPCode`: returned when an invalid http status code is provided. -/
def ErrInvalidHTTPCode : GoError := GoError.invalidHTTPCode

/-- `http.StatusText` from the Go standard library: the canonical text for
each known HTTP status code, and `""` for every other code. -/
def StatusText (code : Int) : String :=
  match code with
  | 100 => "Continue"
  | 101 => "Switching Protocols"
  | 102 => "Processing"
  | 103 => "Early Hints"
  | 200 => "OK"
  | 201 => "Created"
  | 202 => "Accepted"
  | 203 => "Non-Authoritative Information"
  | 204 => "No Content"
  | 205 => "Reset Content"
  | 206 => "Partial Content"
  | 207 => "Multi-Status"
  | 208 => "Already Reported"
  | 226 => "IM Used"
  | 300 => "Multiple Choices"
  | 301 => "Moved Permanently"
  | 302 => "Found"
  | 303 => "See Other"
  | 304 => "Not Modified"
  | 305 => "Use Proxy"
  | 307 => "Temporary Redirect"
  | 308 => "Permanent Redirect"
  | 400 => "Bad Request"
  | 401 => "Unauthorized"
  | 402 => "Payment Required"
  | 403 => "Forbidden"
  | 404 => "Not Found"
  | 405 => "Method Not Allowed"
  | 406 => "Not Acceptable"
  | 407 => "Proxy Authentication Required"
  | 408 => "Request Timeout"
  | 409 => "Conflict"
  | 410 => "Gone"
  | 411 => "Length Required"
  | 412 => "Precondition Failed"
  | 413 => "Request Entity Too Large"
  | 414 => "Request URI Too Long"
  | 415 => "Unsupported Media Type"
  | 416 => "Requested Range Not Satisfiable"
  | 417 => "Expectation Failed"
  | 418 => "I\x27m a teapot"
  | 421 => "Misdirected Request"
  | 422 => "Unprocessable Entity"
  | 423 => "Locked"
  | 424 => "Failed Dependency"
  | 425 => "Too Early"
  | 426 => "Upgrade Required"
  | 428 => "Precondition Required"
  | 429 => "Too Many Requests"
  | 431 => "Request Header Fields Too Large"
  | 451 => "Unavailable For Legal Reasons"
  | 500 => "Internal Server Error"
  | 501 => "Not Implemented"
  | 502 => "Bad Gateway"
  | 503 => "Service Unavailable"
  | 504 => "Gateway Timeout"
  | 505 => "HTTP Version Not Supported"
  | 506 => "Variant Also Negotiates"
  | 507 => "Insufficient Storage"
  | 508 => "Loop Detected"
  | 510 => "Not Extended"
  | 511 => "Network Authentication Required"
  | _ => ""

/-- `RejectInjector`: immediately sends back an empty response. -/
structure RejectInjector where
  reporter : Option Reporter
  deriving DecidableEq, Repr

/-- `NewRejectInjector` returns a `RejectInjector` struct (never an error). -/
def NewRejectInjector : Except GoError RejectInjector :=
  Except.ok { reporter := none }

/-- `Name` of the reject injector (constant, nil-receiver safe). -/
def RejectInjector.Name : String := "Reject Injector"

/-- `RejectInjector.Handler`: report Started when the receiver is non-nil,
then `panic(http.ErrAbortHandler)`.  `none` models a nil `*RejectInjector`
receiver. -/
def RejectInjector.Handler (i : Option RejectInjector) (next : Handler) : Handler :=
  fun _r =>
    match i with
    | some inj =>
        { events := reportWithMessage inj.reporter RejectInjector.Name InjectorState.started,
          panicked := some GoPanic.errAbortHandler }
    | none =>
        { events := [], panicked := some GoPanic.errAbortHandler }

/-- `SetReporter` for the reject injector. -/
def RejectInjector.SetReporter (i : RejectInjector) (rep : Reporter) : RejectInjector :=
  { i with reporter := some rep }

/-- `ErrorInjector`: immutable status code and status text pair plus observer. -/
structure ErrorInjector where
  statusCode : Int
  statusText : String
  reporter : Option Reporter
  deriving DecidableEq, Repr

/-- `NewErrorInjector`: look up the canonical status text, fail with
`ErrInvalidHTTPCode` when there is none. -/
def NewErrorInjector (code : Int) : Except GoError ErrorInjector :=
  let statusText := StatusText code
  if statusText = "" then
    Except.error ErrInvalidHTTPCode
  else
    Except.ok { statusCode := code, statusText := statusText, reporter := none }

/-- `Name` of the error injector (constant, nil-receiver safe). -/
def ErrorInjector.Name : String := "Error Injector"

/-- `ErrorInjector.Handler`: when the receiver is non-nil, report Started,
then if the configured code still has canonical text, `http.Error` with the
stored text and code and return; otherwise fall through to `next`.
`none` models a nil `*ErrorInjector` receiver. -/
def ErrorInjector.Handler (i : Option ErrorInjector) (next : Handler) : Handler :=
  fun r =>
    match i with
    | some inj =>
        let ev := reportWithMessage inj.reporter ErrorInjector.Name InjectorState.started
        if StatusText inj.statusCode ≠ "" then
          { events := ev ++ [Event.httpError inj.statusText inj.statusCode],
            panicked := none }
        else
          let res := next r
          { events := ev ++ res.events, panicked := res.panicked }
    | none => next r

/-- `SetReporter` for the error injector. -/
def ErrorInjector.SetReporter (i : ErrorInjector) (rep : Reporter) : ErrorInjector :=
  { i with reporter := some rep }

/-- Claim C3: every status code with non-empty canonical text constructs an
`ErrorInjector` whose stored text is the table's canonical text; every code
without canonical text fails with `ErrInvalidHTTPCode` and yields no injector. -/
theorem new_error_injector_spec (code : Int) :
    (StatusText code ≠ "" →
      NewErrorInjector code
        = Except.ok { statusCode := code, statusText := StatusText code, reporter := none })
    ∧ (StatusText code = "" →
      NewErrorInjector code = Except.error ErrInvalidHTTPCode) := by
  constructor
  · intro h
    simp only [NewErrorInjector, if_neg h]
  · intro h
    simp only [NewErrorInjector, if_pos h]

/-- Witness for C3 at codes 404 (valid) and 600 (no canonical text). -/
theorem new_error_injector_spec_witness :
    (StatusText 404 ≠ "" ∧
      NewErrorInjector 404
        = Except.ok { statusCode := 404, statusText := StatusText 404, reporter := none })
    ∧ (StatusText 600 = "" ∧
      NewErrorInjector 600 = Except.error ErrInvalidHTTPCode) :=
  ⟨⟨by decide, (new_error_injector_spec 404).1 (by decide)⟩,
   ⟨by decide, (new_error_injector_spec 600).2 (by decide)⟩⟩

/-- Claim C4: for every downstream handler and every request, the reject
injector with an attached observer reports exactly one Started event, reports
no Finished event, writes no response bytes, never invokes the downstream
handler (the result does not mention `next`), and terminates by panicking
with `http.ErrAbortHandler`. -/
theorem reject_handler_spec (rep : Reporter) (next : Handler) (r : Request) :
    RejectInjector.Handler (some { reporter := some rep }) next r
      = { events := [Event.report rep RejectInjector.Name InjectorState.started],
          panicked := some GoPanic.errAbortHandler } := by
  rfl

/-- `ChainInjector`: the ordered middlewares captured from the member
injectors at construction time, plus the observer reference. -/
structure ChainInjector where
  middlewares : List Middleware
  reporter : Option Reporter

/-- `NewChainInjector`: appends each member injector's `Handler` in the
supplied order (the Go variadic `is ...Injector` argument is modelled by the
list of the members' captured wrap operations).  Never an error. -/
def NewChainInjector (ms : List Middleware) : Except GoError ChainInjector :=
  Except.ok { middlewares := ms, reporter := none }

/-- `Name` of the chain injector (constant, nil-receiver safe). -/
def ChainInjector.Name : String := "Chain Injector"

/-- Fallback middleware for list indexing (indexing in the source is always
in bounds, so this fallback is never selected). -/
def idMiddleware : Middleware := fun next => next

/-- The reverse index loop of `ChainInjector.Handler`:
`for idx := len(mw) - 1; idx >= 0; idx-- { next = mw[idx](next) }`.
The `Nat` argument is the number of leading middlewares still to be applied,
so `chainLoop ms ms.length` is the whole loop. -/
def chainLoop (ms : List Middleware) : Nat → Handler → Handler
  | 0, next => next
  | Nat.succ k, next => chainLoop ms k ((ms.getD k idMiddleware) next)

/-- `ChainInjector.Handler`: per invocation, when the receiver is non-nil,
tag the request context, wrap `next` in every middleware by the reverse
loop, and serve the wrapped handler.  The Go closure captures the `next`
parameter by reference and the loop reassigns it
(`next = i.middlewares[idx](next)`), so the wrapping persists into the next
invocation of the same returned handler; the second component is that
captured `next` variable after the invocation, threaded explicitly.  `none`
models a nil `*ChainInjector` receiver, which serves `next` on the untouched
request and leaves it unassigned. -/
def ChainInjector.Handler (i : Option ChainInjector) (next : Handler) (r : Request) :
    HandlerResult × Handler :=
  match i with
  | some inj =>
      let wrapped := chainLoop inj.middlewares inj.middlewares.length next
      (wrapped (updateRequestContextValue r ContextValue.chainInjector), wrapped)
  | none => (next r, next)

/-- `SetReporter` for the chain injector. -/
def ChainInjector.SetReporter (i : ChainInjector) (rep : Reporter) : ChainInjector :=
  { i with reporter := some rep }

/-- The reverse loop over the first `k` middlewares is the right fold of
those middlewares: the head middleware ends up outermost. -/
theorem chainLoop_take (ms : List Middleware) (k : Nat) (hk : k ≤ ms.length)
    (next : Handler) :
    chainLoop ms k next = (ms.take k).foldr (fun m h => m h) next := by
  induction k generalizing next with
  | zero => rfl
  | succ n ih =>
    have hn : n < ms.length := Nat.lt_of_succ_le hk
    have hgetD : ms.getD n idMiddleware = ms[n] := by
      simp [List.getD_eq_getElem?_getD, List.getElem?_eq_getElem hn]
    rw [chainLoop, hgetD, ih (Nat.le_of_lt hn), ← List.take_concat_get' ms n hn,
      List.foldr_append]
    rfl

/-- One chain invocation from captured state `next` serves the nested
application of the middlewares to `next` on the context-tagged request, and
leaves that nested application as the new captured state. -/
theorem chain_handler_foldr (inj : ChainInjector) (next : Handler) (r : Request) :
    ChainInjector.Handler (some inj) next r
      = (inj.middlewares.foldr (fun m h => m h) next
          (updateRequestContextValue r ContextValue.chainInjector),
        inj.middlewares.foldr (fun m h => m h) next) := by
  show (chainLoop inj.middlewares inj.middlewares.length next _,
    chainLoop inj.middlewares inj.middlewares.length next) = _
  rw [chainLoop_take inj.middlewares inj.middlewares.length (Nat.le_refl _),
    List.take_length]

/-- Abstract shape of one chain member's wrapping behavior, covering every
injector of this package: emit some events and possibly retag the request,
then either invoke the member's downstream exactly once (`proceed`) or
short-circuit without invoking it (`stop`, optionally by panicking). -/
inductive MemberAction
  | proceed (pre : List Event) (tagF : Request → Request)
  | stop (pre : List Event) (p : Option GoPanic)

/-- The middleware denoted by a `MemberAction`. -/
def memberMW (a : MemberAction) : Middleware :=
  fun next r =>
    match a with
    | MemberAction.proceed pre tagF =>
        let res := next (tagF r)
        { events := pre ++ res.events, panicked := res.panicked }
    | MemberAction.stop pre p => { events := pre, panicked := p }

/-- Sequential reference semantics of a member list: members run in the
supplied order, each at most once, stopping at the first short-circuit; the
downstream handler runs exactly once, at the end, iff no member stopped. -/
def runMembers (as : List MemberAction) (d : Handler) (r : Request) : HandlerResult :=
  match as with
  | [] => d r
  | MemberAction.proceed pre tagF :: rest =>
      let res := runMembers rest d (tagF r)
      { events := pre ++ res.events, panicked := res.panicked }
  | MemberAction.stop pre p :: _ => { events := pre, panicked := p }

/-- Nested application of member middlewares agrees with the sequential
reference semantics. -/
theorem foldr_memberMW (as : List MemberAction) (d : Handler) (r : Request) :
    (as.map memberMW).foldr (fun m h => m h) d r = runMembers as d r := by
  induction as generalizing r with
  | nil => rfl
  | cons a rest ih =>
    cases a with
    | proceed pre tagF =>
        simp only [List.map_cons, List.foldr_cons, memberMW, runMembers]
        rw [ih]
    | stop pre p => rfl

/-- Events emitted before a short-circuit: each earlier member's own events
in the supplied order, then the short-circuiting member's events. -/
def shortEvents (ps : List (List Event × (Request → Request))) (pre : List Event) :
    List Event :=
  match ps with
  | [] => pre
  | q :: rest => q.1 ++ shortEvents rest pre

/-- When a member short-circuits, the nested application yields only the
events up to and including that member: the middlewares after it and the
downstream handler do not occur in the result at all. -/
theorem short_circuit_foldr (ps : List (List Event × (Request → Request)))
    (pre : List Event) (p : Option GoPanic) (rest : List Middleware)
    (d : Handler) (r : Request) :
    ((ps.map (fun q => memberMW (MemberAction.proceed q.1 q.2))
        ++ memberMW (MemberAction.stop pre p) :: rest).foldr
      (fun m h => m h) d) r
      = { events := shortEvents ps pre, panicked := p } := by
  induction ps generalizing r with
  | nil => rfl
  | cons q ps ih =>
    simp only [List.map_cons, List.cons_append, List.foldr_cons, memberMW, shortEvents]
    rw [ih]

/-- A chain over exactly one member whose wrap emits one sleep event and
then calls its downstream exactly once, leaving the request unchanged. -/
def oneMemberChain : ChainInjector :=
  { middlewares := [memberMW (MemberAction.proceed [Event.sleep 1] (fun q => q))],
    reporter := none }

/-- Claim C1, refuted on the source (which contradicts its own documented
intent that the members "execute in the order provided ... and then
return"): a chain over one proceeding member — its wrap emits one event and
calls its downstream exactly once — is invoked twice through the same
returned handler.  The first invocation runs the member once (first
conjunct), but the loop's reassignment of the captured `next` persists, so
the second invocation re-wraps the already wrapped handler and runs the
single member twice: its event appears twice in one trace (second
conjunct), against the claim's "each member executes at most once per
invocation ... including repeated invocations of the same returned
handler". -/
theorem chain_rewrap_failing_input :
    ((ChainInjector.Handler (some oneMemberChain)
        (fun _ => { events := [], panicked := none }) { tags := [] }).1.events
      = [Event.sleep 1])
    ∧ ((ChainInjector.Handler (some oneMemberChain)
        (ChainInjector.Handler (some oneMemberChain)
          (fun _ => { events := [], panicked := none }) { tags := [] }).2
        { tags := [] }).1.events
      = [Event.sleep 1, Event.sleep 1]) :=
  ⟨rfl, rfl⟩

/-- `SlowInjector`: immutable delay duration, observer, and an injectable
delay function (`sleep`); `none` models a nil `sleep` field. -/
structure SlowInjector where
  duration : Int
  reporter : Option Reporter
  sleep : Option (Int → List Event)

/-- `time.Sleep`, modelled as emitting one sleep event of the requested
duration. -/
def timeSleep : Int → List Event := fun d => [Event.sleep d]

/-- `NewSlowInjector`: stores the configured duration and `time.Sleep`.
Never an error. -/
def NewSlowInjector (d : Int) : Except GoError SlowInjector :=
  Except.ok { duration := d, reporter := none, sleep := some timeSleep }

/-- `Name` of the slow injector (constant, nil-receiver safe). -/
def SlowInjector.Name : String := "Slow Injector"

/-- `SlowInjector.Handler`: when the receiver and its `sleep` field are
non-nil, report Started, sleep for the configured duration, report Finished,
then serve `next` on the request tagged as delayed; otherwise serve `next`
on the request tagged as skipped.  `none` models a nil `*SlowInjector`
receiver. -/
def SlowInjector.Handler (i : Option SlowInjector) (next : Handler) : Handler :=
  fun r =>
    match i with
    | some inj =>
        match inj.sleep with
        | some slp =>
            let ev := reportWithMessage inj.reporter SlowInjector.Name InjectorState.started
              ++ slp inj.duration
              ++ reportWithMessage inj.reporter SlowInjector.Name InjectorState.finished
            let res := next (updateRequestContextValue r ContextValue.slowInjector)
            { events := ev ++ res.events, panicked := res.panicked }
        | none => next (updateRequestContextValue r ContextValue.skipped)
    | none => next (updateRequestContextValue r ContextValue.skipped)

/-- `SetReporter` for the slow injector. -/
def SlowInjector.SetReporter (i : SlowInjector) (rep : Reporter) : SlowInjector :=
  { i with reporter := some rep }

/-- Claim C5: an error injector constructed with code `c` and a reporter
attached reports Started and writes status `c` with the canonical text of
`c` as the body, without invoking `next` (the result does not mention it);
an error injector whose configured code has no canonical text at invocation
time falls through and invokes `next` exactly once after reporting. -/
theorem error_handler_spec (code : Int) (inj : ErrorInjector) (rep : Reporter)
    (next : Handler) (r : Request) (inj2 : ErrorInjector) :
    (NewErrorInjector code = Except.ok inj →
      ErrorInjector.Handler (some (inj.SetReporter rep)) next r
        = { events := [Event.report rep ErrorInjector.Name InjectorState.started,
              Event.httpError (StatusText code) code],
            panicked := none })
    ∧ (StatusText inj2.statusCode = "" →
      ErrorInjector.Handler (some inj2) next r
        = { events := reportWithMessage inj2.reporter ErrorInjector.Name InjectorState.started
              ++ (next r).events,
            panicked := (next r).panicked }) := by
  constructor
  · intro h
    by_cases hc : StatusText code = ""
    · simp only [NewErrorInjector, if_pos hc] at h
      exact Except.noConfusion h
    · simp only [NewErrorInjector, if_neg hc] at h
      cases h
      simp [ErrorInjector.Handler, ErrorInjector.SetReporter, reportWithMessage, hc]
  · intro h
    simp [ErrorInjector.Handler, h]

/-- Witness for C5 at code 404 (canonical text) and a defensively
misconfigured injector with code 600 (no canonical text). -/
theorem error_handler_spec_witness :
    (NewErrorInjector 404
        = Except.ok { statusCode := 404, statusText := "Not Found", reporter := none } ∧
      ErrorInjector.Handler
          (some (ErrorInjector.SetReporter
            { statusCode := 404, statusText := "Not Found", reporter := none } { id := 7 }))
          (fun _ => { events := [], panicked := none }) { tags := [] }
        = { events := [Event.report { id := 7 } ErrorInjector.Name InjectorState.started,
              Event.httpError (StatusText 404) 404],
            panicked := none })
    ∧ (StatusText (600 : Int) = "" ∧
      ErrorInjector.Handler
          (some { statusCode := 600, statusText := "", reporter := none })
          (fun _ => { events := [], panicked := none }) { tags := [] }
        = { events := reportWithMessage none ErrorInjector.Name InjectorState.started
              ++ ((fun (_ : Request) =>
                    ({ events := [], panicked := none } : HandlerResult)) { tags := [] }).events,
            panicked := ((fun (_ : Request) =>
                    ({ events := [], panicked := none } : HandlerResult)) { tags := [] }).panicked }) :=
  ⟨⟨rfl,
    (error_handler_spec 404 { statusCode := 404, statusText := "Not Found", reporter := none }
      { id := 7 } (fun _ => { events := [], panicked := none }) { tags := [] }
      { statusCode := 600, statusText := "", reporter := none }).1 rfl⟩,
   ⟨by decide,
    (error_handler_spec 404 { statusCode := 404, statusText := "Not Found", reporter := none }
      { id := 7 } (fun _ => { events := [], panicked := none }) { tags := [] }
      { statusCode := 600, statusText := "", reporter := none }).2 (by decide)⟩⟩

/-- Claim C6: a slow injector with a configured delay function and attached
reporter reports Started, delays (for `time.Sleep` this is one sleep of
exactly the configured duration), reports Finished, tags the request as
delayed, then invokes `next` exactly once, in that order; with no delay
function configured it tags the request as skipped and invokes `next`
immediately, reporting nothing. -/
theorem slow_handler_spec (dur : Int) (rep : Reporter) (orep : Option Reporter)
    (slp : Int → List Event) (next : Handler) (r : Request) :
    (SlowInjector.Handler
        (some { duration := dur, reporter := some rep, sleep := some slp }) next r
      = { events := Event.report rep SlowInjector.Name InjectorState.started
            :: (slp dur
              ++ (Event.report rep SlowInjector.Name InjectorState.finished
                :: (next (updateRequestContextValue r ContextValue.slowInjector)).events)),
          panicked := (next (updateRequestContextValue r ContextValue.slowInjector)).panicked })
    ∧ (SlowInjector.Handler
        (some { duration := dur, reporter := some rep, sleep := some timeSleep }) next r
      = { events := [Event.report rep SlowInjector.Name InjectorState.started,
            Event.sleep dur,
            Event.report rep SlowInjector.Name InjectorState.finished]
            ++ (next (updateRequestContextValue r ContextValue.slowInjector)).events,
          panicked := (next (updateRequestContextValue r ContextValue.slowInjector)).panicked })
    ∧ (SlowInjector.Handler
        (some { duration := dur, reporter := orep, sleep := none }) next r
      = next (updateRequestContextValue r ContextValue.skipped)) := by
  refine ⟨?_, ?_, rfl⟩
  · simp [SlowInjector.Handler, reportWithMessage]
  · simp [SlowInjector.Handler, reportWithMessage, timeSleep]

/-- Modelled from the spec: the state of the deterministic seeded
pseudo-random source (`math/rand.Source`): a 64-bit word advanced by a fixed
pure step function.  Go's source is deterministic for a fixed seed; the
exact step function is outside this repository, so a concrete linear
congruential step stands in for it. -/
structure RandState where
  s : Nat
  deriving DecidableEq, Repr

/-- `rand.New(rand.NewSource(seed))`: the initial generator state for a
seed. -/
def RandState.new (seed : Int) : RandState :=
  { s := (seed % (2 : Int) ^ 64).toNat }

/-- One step of the generator: the next raw draw and the advanced state. -/
def RandState.next (st : RandState) : Nat × RandState :=
  let s2 := (6364136223846793005 * st.s + 1442695040888963407) % 2 ^ 64
  ((s2 / 2 ^ 33) % 2 ^ 31, { s := s2 })

/-- `(*rand.Rand).Intn n`: a draw in `[0, n)` (the source guards `n > 0`),
advancing the generator state. -/
def RandState.intn (st : RandState) (n : Nat) : Nat × RandState :=
  ((st.next).1 % n, (st.next).2)

/-- Modelled from the spec: the fixed default seed (`defaultRandSeed` is
declared outside `src/`; the spec fixes it for reproducibility). -/
def defaultRandSeed : Int := 100

/-- `RandomInjector`: ordered middlewares captured at construction, the
observer reference, and the shared generator state advanced by every
invocation (the `rand`/`randF` pair of the source, with `randF` always the
generator's `Intn`). -/
structure RandomInjector where
  middlewares : List Middleware
  reporter : Option Reporter
  rand : RandState

/-- `NewRandomInjector`: captures each member injector's `Handler` in order
and seeds the generator with the fixed default seed.  Never an error. -/
def NewRandomInjector (ms : List Middleware) : Except GoError RandomInjector :=
  Except.ok { middlewares := ms, reporter := none, rand := RandState.new defaultRandSeed }

/-- `Name` of the random injector (constant, nil-receiver safe). -/
def RandomInjector.Name : String := "Random Injector"

/-- `SetRandSeed`: replaces the generator (and its `Intn`) by one seeded
with the given seed. -/
def RandomInjector.SetRandSeed (i : RandomInjector) (s : Int) : RandomInjector :=
  { i with rand := RandState.new s }

/-- `RandomInjector.Handler`: per invocation, when the receiver is non-nil
and members exist, tag the request, draw one index with `randF` and serve
exactly that member's wrapped handler; otherwise serve `next` directly.
The second component is the receiver's state after the invocation (the
closure mutates the shared generator through the receiver pointer, which is
threaded explicitly here); `none` models a nil `*RandomInjector` receiver. -/
def RandomInjector.Handler (i : Option RandomInjector) (next : Handler) (r : Request) :
    HandlerResult × Option RandomInjector :=
  match i with
  | some inj =>
      if 0 < inj.middlewares.length then
        ((inj.middlewares.getD (RandState.intn inj.rand inj.middlewares.length).1 idMiddleware)
            next (updateRequestContextValue r ContextValue.randomInjector),
          some { inj with rand := (RandState.intn inj.rand inj.middlewares.length).2 })
      else (next r, some inj)
  | none => (next r, none)

/-- `SetReporter` for the random injector. -/
def RandomInjector.SetReporter (i : RandomInjector) (rep : Reporter) : RandomInjector :=
  { i with reporter := some rep }

/-- Claim C2: with at least one member, each invocation draws one index
`k < n` and delegates to exactly member `k`'s wrapped handler on the tagged
request; the result does not depend on any other member (third conjunct:
replacing every other member leaves the invocation unchanged).  With zero
members the invocation is exactly `next r` — a pass-through, never an
error. -/
theorem random_handler_spec (ms : List Middleware) (rep : Option Reporter)
    (st : RandState) (next : Handler) (r : Request) :
    (0 < ms.length →
      ∃ k, k < ms.length ∧
        (RandomInjector.Handler (some { middlewares := ms, reporter := rep, rand := st })
            next r).1
          = (ms.getD k idMiddleware) next
              (updateRequestContextValue r ContextValue.randomInjector) ∧
        ∀ ms2 : List Middleware, ms2.length = ms.length →
          ms2.getD k idMiddleware = ms.getD k idMiddleware →
          (RandomInjector.Handler (some { middlewares := ms2, reporter := rep, rand := st })
              next r).1
            = (RandomInjector.Handler (some { middlewares := ms, reporter := rep, rand := st })
                next r).1)
    ∧ (ms.length = 0 →
      (RandomInjector.Handler (some { middlewares := ms, reporter := rep, rand := st })
          next r).1
        = next r) := by
  constructor
  · intro h
    refine ⟨(RandState.intn st ms.length).1, ?_, ?_, ?_⟩
    · exact Nat.mod_lt _ h
    · simp [RandomInjector.Handler, if_pos h]
    · intro ms2 hlen hget
      simp only [RandomInjector.Handler, hlen, if_pos h, hget]
  · intro h
    simp [RandomInjector.Handler, h]

/-- Witness for C2 with one member (an identity middleware) and with zero
members. -/
theorem random_handler_spec_witness :
    (0 < ([idMiddleware] : List Middleware).length ∧
      ∃ k, k < ([idMiddleware] : List Middleware).length ∧
        (RandomInjector.Handler
            (some { middlewares := [idMiddleware], reporter := none, rand := RandState.new 1 })
            (fun _ => { events := [], panicked := none }) { tags := [] }).1
          = (([idMiddleware] : List Middleware).getD k idMiddleware)
              (fun _ => { events := [], panicked := none })
              (updateRequestContextValue { tags := [] } ContextValue.randomInjector) ∧
        ∀ ms2 : List Middleware, ms2.length = ([idMiddleware] : List Middleware).length →
          ms2.getD k idMiddleware = ([idMiddleware] : List Middleware).getD k idMiddleware →
          (RandomInjector.Handler
              (some { middlewares := ms2, reporter := none, rand := RandState.new 1 })
              (fun _ => { events := [], panicked := none }) { tags := [] }).1
            = (RandomInjector.Handler
                (some { middlewares := [idMiddleware], reporter := none, rand := RandState.new 1 })
                (fun _ => { events := [], panicked := none }) { tags := [] }).1)
    ∧ (([] : List Middleware).length = 0 ∧
      (RandomInjector.Handler
          (some { middlewares := [], reporter := none, rand := RandState.new 1 })
          (fun _ => { events := [], panicked := none }) { tags := [] }).1
        = (fun (_ : Request) => ({ events := [], panicked := none } : HandlerResult)) { tags := [] }) :=
  ⟨⟨by decide,
    (random_handler_spec [idMiddleware] none (RandState.new 1)
      (fun _ => { events := [], panicked := none }) { tags := [] }).1 (by decide)⟩,
   ⟨rfl,
    (random_handler_spec [] none (RandState.new 1)
      (fun _ => { events := [], panicked := none }) { tags := [] }).2 rfl⟩⟩

/-- The member index a random injector in a given state will draw on its
next invocation (`none` when the receiver is nil or there are no members, in
which case no draw happens). -/
def RandomInjector.chosenIdx (i : Option RandomInjector) : Option Nat :=
  match i with
  | some inj =>
      if 0 < inj.middlewares.length then
        some (RandState.intn inj.rand inj.middlewares.length).1
      else none
  | none => none

/-- The sequence of member indices drawn over a run of sequential
invocations of the same returned handler, one request after the other. -/
def randomSelections (i : Option RandomInjector) (next : Handler) :
    List Request → List (Option Nat)
  | [] => []
  | r :: rest =>
      RandomInjector.chosenIdx i
        :: randomSelections (RandomInjector.Handler i next r).2 next rest

/-- The injector state after one invocation: the receiver with its generator
advanced exactly when a draw happened; nothing else changes. -/
theorem handler_state_update (inj : RandomInjector) (next : Handler) (r : Request) :
    (RandomInjector.Handler (some inj) next r).2
      = some { inj with
          rand := if 0 < inj.middlewares.length
            then (RandState.intn inj.rand inj.middlewares.length).2
            else inj.rand } := by
  by_cases h : 0 < inj.middlewares.length
  · simp [RandomInjector.Handler, h]
  · simp [RandomInjector.Handler, h]

/-- The drawn index sequence depends only on the member list, the generator
state, and the number of invocations: not on the reporter, the downstream
handler, or the requests themselves. -/
theorem selections_dep (ms : List Middleware) (st : RandState)
    (rep rep2 : Option Reporter) (next next2 : Handler)
    (reqs reqs2 : List Request) (h : reqs.length = reqs2.length) :
    randomSelections (some { middlewares := ms, reporter := rep, rand := st })
        next reqs
      = randomSelections (some { middlewares := ms, reporter := rep2, rand := st })
          next2 reqs2 := by
  induction reqs generalizing reqs2 st with
  | nil =>
      cases reqs2 with
      | nil => rfl
      | cons r2 rs2 => simp at h
  | cons r rs ih =>
      cases reqs2 with
      | nil => simp at h
      | cons r2 rs2 =>
          simp only [randomSelections]
          refine congrArg₂ _ rfl ?_
          rw [handler_state_update, handler_state_update]
          exact ih _ _ (by simpa using h)

/-- Claim C7: over the same member list, two runs seeded alike — via the
same `SetRandSeed` call (first conjunct) or both via the fixed default seed
of `NewRandomInjector` (second conjunct) — and driven by the same number of
requests draw the same sequence of member indices, whatever the requests,
reporters, prior states, and downstream handlers are: the selection sequence
is a deterministic function of the seed and the invocation count. -/
theorem random_seed_determinism (ms : List Middleware)
    (rep rep2 : Option Reporter) (st st2 : RandState) (s : Int)
    (next next2 : Handler) (reqs reqs2 : List Request)
    (i i2 : RandomInjector) (h : reqs.length = reqs2.length) :
    (randomSelections
        (some (RandomInjector.SetRandSeed
          { middlewares := ms, reporter := rep, rand := st } s)) next reqs
      = randomSelections
          (some (RandomInjector.SetRandSeed
            { middlewares := ms, reporter := rep2, rand := st2 } s)) next2 reqs2)
    ∧ (NewRandomInjector ms = Except.ok i → NewRandomInjector ms = Except.ok i2 →
      randomSelections (some i) next reqs
        = randomSelections (some i2) next2 reqs2) := by
  constructor
  · exact selections_dep ms (RandState.new s) rep rep2 next next2 reqs reqs2 h
  · intro h1 h2
    simp only [NewRandomInjector, Except.ok.injEq] at h1 h2
    rw [← h1, ← h2]
    exact selections_dep ms (RandState.new defaultRandSeed) none none next next2 reqs reqs2 h

/-- Witness for C7: two seeded runs of length two over one member. -/
theorem random_seed_determinism_witness :
    ([{ tags := [] }, { tags := [ContextValue.skipped] }] : List Request).length
      = ([{ tags := [ContextValue.chainInjector] }, { tags := [] }] : List Request).length
    ∧ (randomSelections
        (some (RandomInjector.SetRandSeed
          { middlewares := [idMiddleware], reporter := none, rand := RandState.new 9 } 42))
        (fun _ => { events := [], panicked := none })
        [{ tags := [] }, { tags := [ContextValue.skipped] }]
      = randomSelections
          (some (RandomInjector.SetRandSeed
            { middlewares := [idMiddleware], reporter := some { id := 3 },
              rand := RandState.new 11 } 42))
          (fun _ => { events := [Event.sleep 5], panicked := none })
          [{ tags := [ContextValue.chainInjector] }, { tags := [] }]) :=
  ⟨rfl,
    (random_seed_determinism [idMiddleware] none (some { id := 3 })
      (RandState.new 9) (RandState.new 11) 42
      (fun _ => { events := [], panicked := none })
      (fun _ => { events := [Event.sleep 5], panicked := none })
      [{ tags := [] }, { tags := [ContextValue.skipped] }]
      [{ tags := [ContextValue.chainInjector] }, { tags := [] }]
      { middlewares := [idMiddleware], reporter := none, rand := RandState.new defaultRandSeed }
      { middlewares := [idMiddleware], reporter := none, rand := RandState.new defaultRandSeed }
      rfl).1⟩

/-- Claim C9: invoking any combinator's or leaf injector's handler on a nil
receiver is a safe pass-through invoking `next` exactly once (for the slow
injector, also when only its delay function is nil, with the request tagged
as skipped); the reject injector still aborts by panicking with
`http.ErrAbortHandler` on a nil receiver, never invoking `next`. -/
theorem nil_receiver_spec (dur : Int) (orep : Option Reporter)
    (next : Handler) (r : Request) :
    (ChainInjector.Handler none next r = (next r, next))
    ∧ ((RandomInjector.Handler none next r).1 = next r)
    ∧ (ErrorInjector.Handler none next r = next r)
    ∧ (SlowInjector.Handler none next r
        = next (updateRequestContextValue r ContextValue.skipped))
    ∧ (SlowInjector.Handler (some { duration := dur, reporter := orep, sleep := none }) next r
        = next (updateRequestContextValue r ContextValue.skipped))
    ∧ (RejectInjector.Handler none next r
        = { events := [], panicked := some GoPanic.errAbortHandler }) :=
  ⟨rfl, rfl, rfl, rfl, rfl, rfl⟩

/-- Claim C10: `SetReporter` on a combinator changes exactly the stored
reporter field (members and generator state are untouched), and the
combinator's handler behavior never depends on that field: the chain
handler and the random handler's invocation result are identical under any
two reporter values, so the combinator itself never reports through the
attached reporter. -/
theorem set_reporter_frame (c : ChainInjector) (ri : RandomInjector) (rep : Reporter)
    (rep1 rep2 : Option Reporter) (next : Handler) (r : Request) :
    ((ChainInjector.SetReporter c rep).middlewares = c.middlewares
      ∧ (ChainInjector.SetReporter c rep).reporter = some rep)
    ∧ ((RandomInjector.SetReporter ri rep).middlewares = ri.middlewares
      ∧ (RandomInjector.SetReporter ri rep).rand = ri.rand
      ∧ (RandomInjector.SetReporter ri rep).reporter = some rep)
    ∧ (ChainInjector.Handler (some { middlewares := c.middlewares, reporter := rep1 }) next r
      = ChainInjector.Handler (some { middlewares := c.middlewares, reporter := rep2 }) next r)
    ∧ ((RandomInjector.Handler
          (some { middlewares := ri.middlewares, reporter := rep1, rand := ri.rand }) next r).1
      = (RandomInjector.Handler
          (some { middlewares := ri.middlewares, reporter := rep2, rand := ri.rand }) next r).1) := by
  refine ⟨⟨rfl, rfl⟩, ⟨rfl, rfl, rfl⟩, rfl, ?_⟩
  by_cases h : 0 < ri.middlewares.length
  · simp [RandomInjector.Handler, h]
  · simp [RandomInjector.Handler, h]
